import Mathlib

set_option maxRecDepth 1000000

/-!
Verification of the MediScan-IQ text-processing core: the PHI anonymizer
(`preprocess/anonymizer.py`), sentence segmenter (`preprocess/segmenter.py`),
risk fusion engine (`nlp/risk_tagger.py`), extractive summarization fallback
(`nlp/summarizer.py`) and the span highlighter of `app_streamlit.py`.

The Python sources are shallowly embedded: regular-expression scanning is
modelled by a small backtracking engine (`RE`, `matchEnds`, `finditer`,
`subst`) whose candidate ordering mirrors CPython's `re` semantics
(leftmost match, alternation priority left to right, greedy quantifiers);
each compiled pattern of the source is transcribed as an `RE` value.
SHA-256 (`hashlib.sha256`) is implemented bit-faithfully over `Nat` with
explicit reduction modulo `2^32`.  Probability arithmetic of the risk
engine is modelled over `ℚ`.  Text is processed as `List Char`, matching
CPython's code-point indexing of `str`.
-/

namespace MediScan

/-! ### Character predicates (ASCII fragments of CPython's `str` semantics) -/

/-- Python `\s` / `str.strip()` whitespace, restricted to ASCII:
space, tab, newline, vertical tab, form feed, carriage return. -/
def isPySpace (c : Char) : Bool :=
  c = ' ' || c = '\t' || c = '\n' || c = '\x0b' || c = '\x0c' || c = '\r'

/-- ASCII decimal digit, Python `\d`. -/
def isDigitC (c : Char) : Bool := '0' ≤ c && c ≤ '9'

/-- ASCII uppercase letter. -/
def isUpperC (c : Char) : Bool := 'A' ≤ c && c ≤ 'Z'

/-- ASCII lowercase letter. -/
def isLowerC (c : Char) : Bool := 'a' ≤ c && c ≤ 'z'

/-- ASCII letter. -/
def isAlphaC (c : Char) : Bool := isUpperC c || isLowerC c

/-- Python `\w` (ASCII fragment): letter, digit or underscore. -/
def isWordC (c : Char) : Bool := isAlphaC c || isDigitC c || c = '_'

/-- ASCII lowering, as `str.lower()` acts on ASCII letters. -/
def lowerChar (c : Char) : Char :=
  if 65 ≤ c.toNat ∧ c.toNat ≤ 90 then Char.ofNat (c.toNat + 32) else c

/-- `str.lower()` on code points (ASCII fragment). -/
def pyLower (l : List Char) : List Char := l.map lowerChar

/-- `str.strip()` with no argument: trim whitespace from both ends. -/
def pyStrip (l : List Char) : List Char :=
  ((l.dropWhile isPySpace).reverse.dropWhile isPySpace).reverse

/-! ### A backtracking regular-expression engine

Mirrors the subset of `re`/`regex` syntax used by the repository:
character classes, literals (optionally case-insensitive), greedy counted
class repetition `{lo,hi}` / `*` / `+`, concatenation, alternation, greedy
option `?`, and the word-boundary anchor `\b`.  `matchEnds re l i` lists
the end positions of matches of `re` starting at offset `i` of `l`, in
backtracking priority order, so its head is the match CPython's engine
produces. -/

inductive RE where
  | eps
  | cls (p : Char → Bool)
  | lit (s : List Char) (ci : Bool)
  | rep (p : Char → Bool) (lo : Nat) (hi : Option Nat)
  | seq (a b : RE)
  | alt (a b : RE)
  | opt (a : RE)
  | bnd

/-- Concatenation of a list of regexes. -/
def cat (l : List RE) : RE := l.foldr RE.seq RE.eps

/-- Left-to-right alternation of `x :: xs` (priority order preserved). -/
def alts (x : RE) (xs : List RE) : RE := xs.foldl RE.alt x

/-- Does literal `s` (case-insensitively if `ci`) head the suffix `l`? -/
def litAt (s : List Char) (ci : Bool) (l : List Char) : Bool :=
  match s, l with
  | [], _ => true
  | _ :: _, [] => false
  | c :: s', d :: l' =>
      (if ci then lowerChar c = lowerChar d else c = d) && litAt s' ci l'

/-- Length of the maximal run of characters satisfying `p` heading `l`. -/
def runLen (p : Char → Bool) (l : List Char) : Nat :=
  match l with
  | [] => 0
  | c :: l' => if p c then runLen p l' + 1 else 0

/-- Is the character at offset `i` (if any) a word character? -/
def wordAt (l : List Char) (i : Nat) : Bool :=
  match l[i]? with
  | some c => isWordC c
  | none => false

/-- Python's `\b`: offset `i` lies between a word and a non-word character. -/
def atBoundary (l : List Char) (i : Nat) : Bool :=
  (if i = 0 then false else wordAt l (i - 1)) != wordAt l i

/-- The count a greedy class repetition `{lo,hi}` consumes first: the run
length from offset `i`, capped by `hi` when bounded. -/
def repCount (p : Char → Bool) (l : List Char) (i : Nat) (hi : Option Nat) : Nat :=
  match hi with
  | none => runLen p (l.drop i)
  | some h => min (runLen p (l.drop i)) h

/-- End offsets of matches of `re` starting at offset `i`, in backtracking
priority order (head = CPython's match). -/
def matchEnds (re : RE) (l : List Char) (i : Nat) : List Nat :=
  match re with
  | .eps => [i]
  | .cls p =>
      match l[i]? with
      | some c => if p c then [i + 1] else []
      | none => []
  | .lit s ci => if litAt s ci (l.drop i) then [i + s.length] else []
  | .rep p lo hi =>
      (List.range (repCount p l i hi + 1 - lo)).map
        (fun k => i + (repCount p l i hi - k))
  | .seq a b => (matchEnds a l i).flatMap (fun j => matchEnds b l j)
  | .alt a b => matchEnds a l i ++ matchEnds b l i
  | .opt a => matchEnds a l i ++ [i]
  | .bnd => if atBoundary l i then [i] else []

/-- All non-overlapping matches of `re` in `l` from offset `i` as
`(start, end)` pairs, scanning left to right as `re.finditer` does
(after a match the scan resumes at its end, or one further for an empty
match).  `fuel` is an upper bound on the number of scan steps. -/
def finditerAux (re : RE) (l : List Char) : Nat → Nat → List (Nat × Nat)
  | 0, _ => []
  | fuel + 1, i =>
      if i ≤ l.length then
        match (matchEnds re l i).head? with
        | some e => (i, e) :: finditerAux re l fuel (max e (i + 1))
        | none => finditerAux re l fuel (i + 1)
      else []

/-- `re.finditer(pattern, l)`, spans only. -/
def finditer (re : RE) (l : List Char) : List (Nat × Nat) :=
  finditerAux re l (l.length + 1) 0

/-- `l[a:b]` on code points. -/
def slice (l : List Char) (a b : Nat) : List Char := (l.drop a).take (b - a)

/-- Replace the listed `(start, end)` spans, walking from offset `cur`. -/
def substAux (l : List Char) (f : List Char → List Char) :
    List (Nat × Nat) → Nat → List Char
  | [], cur => l.drop cur
  | (s, e) :: ms, cur => slice l cur s ++ f (slice l s e) ++ substAux l f ms e

/-- `pattern.sub(f, l)`: replace every match of `re` by `f` of the
matched token. -/
def subst (re : RE) (f : List Char → List Char) (l : List Char) : List Char :=
  substAux l f (finditer re l) 0

/-- `re.search(pattern, l)` succeeds. -/
def search (re : RE) (l : List Char) : Bool := !(finditer re l).isEmpty

/-! ### SHA-256 (`hashlib.sha256`), over `Nat` with explicit `% 2^32` -/

/-- Right rotation of a 32-bit word. -/
def rotr32 (n x : Nat) : Nat := x / 2 ^ n + x % 2 ^ n * 2 ^ (32 - n)

/-- Bitwise complement of a 32-bit word. -/
def not32 (x : Nat) : Nat := Nat.xor x (2 ^ 32 - 1)

def ch32 (x y z : Nat) : Nat := Nat.xor (Nat.land x y) (Nat.land (not32 x) z)

def maj32 (x y z : Nat) : Nat :=
  Nat.xor (Nat.xor (Nat.land x y) (Nat.land x z)) (Nat.land y z)

def bigS0 (x : Nat) : Nat := Nat.xor (Nat.xor (rotr32 2 x) (rotr32 13 x)) (rotr32 22 x)

def bigS1 (x : Nat) : Nat := Nat.xor (Nat.xor (rotr32 6 x) (rotr32 11 x)) (rotr32 25 x)

def smallS0 (x : Nat) : Nat := Nat.xor (Nat.xor (rotr32 7 x) (rotr32 18 x)) (x / 2 ^ 3)

def smallS1 (x : Nat) : Nat := Nat.xor (Nat.xor (rotr32 17 x) (rotr32 19 x)) (x / 2 ^ 10)

/-- SHA-256 round constants. -/
def sha256K : List Nat :=
  [1116352408, 1899447441, 3049323471, 3921009573, 961987163, 1508970993,
   2453635748, 2870763221, 3624381080, 310598401, 607225278, 1426881987,
   1925078388, 2162078206, 2614888103, 3248222580, 3835390401, 4022224774,
   264347078, 604807628, 770255983, 1249150122, 1555081692, 1996064986,
   2554220882, 2821834349, 2952996808, 3210313671, 3336571891, 3584528711,
   113926993, 338241895, 666307205, 773529912, 1294757372, 1396182291,
   1695183700, 1986661051, 2177026350, 2456956037, 2730485921, 2820302411,
   3259730800, 3345764771, 3516065817, 3600352804, 4094571909, 275423344,
   430227734, 506948616, 659060556, 883997877, 958139571, 1322822218,
   1537002063, 1747873779, 1955562222, 2024104815, 2227730452, 2361852424,
   2428436474, 2756734187, 3204031479, 3329325298]

/-- SHA-256 initial hash value. -/
def sha256H0 : List Nat :=
  [1779033703, 3144134277, 1013904242, 2773480762, 1359893119, 2600822924,
   528734635, 1541459225]

/-- Big-endian bytes of `n`, `k` bytes wide. -/
def beBytes (k n : Nat) : List Nat :=
  (List.range k).map (fun i => n / 2 ^ (8 * (k - 1 - i)) % 256)

/-- SHA-256 message padding of a byte string. -/
def sha256Pad (msg : List Nat) : List Nat :=
  let L := msg.length
  let k := (119 - L % 64) % 64
  msg ++ [128] ++ List.replicate k 0 ++ beBytes 8 (8 * L)

/-- Split a padded message into 64-byte blocks (`fuel` bounds recursion). -/
def chunk64 : Nat → List Nat → List (List Nat)
  | 0, _ => []
  | _ + 1, [] => []
  | fuel + 1, l => l.take 64 :: chunk64 fuel (l.drop 64)

/-- The 16 initial 32-bit schedule words of a 64-byte block. -/
def blockWords (block : List Nat) : List Nat :=
  (List.range 16).map (fun j =>
    block.getD (4 * j) 0 * 2 ^ 24 + block.getD (4 * j + 1) 0 * 2 ^ 16 +
    block.getD (4 * j + 2) 0 * 2 ^ 8 + block.getD (4 * j + 3) 0)

/-- Extend the message schedule by `t` further words. -/
def extendW (w : List Nat) : Nat → List Nat
  | 0 => w
  | t + 1 =>
      let n := w.length
      extendW (w ++ [(smallS1 (w.getD (n - 2) 0) + w.getD (n - 7) 0 +
        smallS0 (w.getD (n - 15) 0) + w.getD (n - 16) 0) % 2 ^ 32]) t

/-- One SHA-256 compression round. -/
def sha256Round (kw : Nat × Nat) (st : List Nat) : List Nat :=
  let a := st.getD 0 0
  let b := st.getD 1 0
  let c := st.getD 2 0
  let d := st.getD 3 0
  let e := st.getD 4 0
  let f := st.getD 5 0
  let g := st.getD 6 0
  let h := st.getD 7 0
  let t1 := (h + bigS1 e + ch32 e f g + kw.1 + kw.2) % 2 ^ 32
  let t2 := (bigS0 a + maj32 a b c) % 2 ^ 32
  [(t1 + t2) % 2 ^ 32, a, b, c, (d + t1) % 2 ^ 32, e, f, g]

/-- SHA-256 compression of one block into the chaining value `H`. -/
def sha256Compress (H : List Nat) (block : List Nat) : List Nat :=
  let w := extendW (blockWords block) 48
  let st := (sha256K.zip w).foldl (fun st kw => sha256Round kw st) H
  List.zipWith (fun x y => (x + y) % 2 ^ 32) H st

/-- SHA-256 digest (eight 32-bit words) of a byte string. -/
def sha256Words (msg : List Nat) : List Nat :=
  (chunk64 (msg.length / 64 + 2) (sha256Pad msg)).foldl sha256Compress sha256H0

/-- Lowercase hex digit. -/
def hexChar (n : Nat) : Char :=
  if n < 10 then Char.ofNat (48 + n) else Char.ofNat (87 + n)

/-- Eight hex characters of a 32-bit word. -/
def hex8 (x : Nat) : List Char :=
  (List.range 8).map (fun i => hexChar (x / 16 ^ (7 - i) % 16))

/-- `hashlib.sha256(msg).hexdigest()` over bytes. -/
def sha256Hex (msg : List Nat) : List Char := (sha256Words msg).flatMap hex8

/-- UTF-8 encoding of one code point (`str.encode("utf-8")`). -/
def utf8Char (c : Char) : List Nat :=
  let n := c.toNat
  if n < 128 then [n]
  else if n < 2048 then [192 + n / 64, 128 + n % 64]
  else if n < 65536 then [224 + n / 4096, 128 + n / 64 % 64, 128 + n % 64]
  else [240 + n / 262144, 128 + n / 4096 % 64, 128 + n / 64 % 64, 128 + n % 64]

/-- UTF-8 encoding of a code-point string. -/
def utf8 (l : List Char) : List Nat := l.flatMap utf8Char

/-! ### Association-list dictionaries (Python `dict` with insertion order) -/

/-- `d.get(k, dflt)`. -/
def lookupD {α : Type} (d : List (String × α)) (k : String) (dflt : α) : α :=
  match d with
  | [] => dflt
  | (k', v) :: r => if k = k' then v else lookupD r k dflt

/-- `d[k] = v`: overwrite in place, else append (insertion order kept). -/
def upsert {α : Type} (d : List (String × α)) (k : String) (v : α) :
    List (String × α) :=
  match d with
  | [] => [(k, v)]
  | (k', v') :: r => if k = k' then (k, v) :: r else (k', v') :: upsert r k v

/-! ### `preprocess/anonymizer.py` -/

/-- `[A-Z0-9._%+-]` under `re.I`. -/
def emailLocalC (c : Char) : Bool :=
  isAlphaC c || isDigitC c || c ∈ ['.', '_', '%', '+', '-']

/-- `[A-Z0-9.-]` under `re.I`. -/
def emailDomainC (c : Char) : Bool := isAlphaC c || isDigitC c || c = '.' || c = '-'

/-- `PATTERNS["email"]`: `\b[A-Z0-9._%+-]+@[A-Z0-9.-]+\.[A-Z]{2,}\b`, `re.I`. -/
def emailRE : RE :=
  cat [.bnd, .rep emailLocalC 1 none, .lit ['@'] true, .rep emailDomainC 1 none,
       .lit ['.'] true, .rep isAlphaC 2 none, .bnd]

/-- `PATTERNS["phone"]`:
`\b(?:\+?\d{1,3})?[-. (]*\d{2,4}[-. )]*\d{3,4}[-. ]*\d{3,4}\b`. -/
def phoneRE : RE :=
  cat [.bnd,
       .opt (cat [.rep (· = '+') 0 (some 1), .rep isDigitC 1 (some 3)]),
       .rep (fun c => c ∈ ['-', '.', ' ', '(']) 0 none, .rep isDigitC 2 (some 4),
       .rep (fun c => c ∈ ['-', '.', ' ', ')']) 0 none, .rep isDigitC 3 (some 4),
       .rep (fun c => c ∈ ['-', '.', ' ']) 0 none, .rep isDigitC 3 (some 4), .bnd]

/-- `PATTERNS["mrn"]`: `\b(MRN[:\s]*\d{5,12}|\d{7,12})\b`, `re.I`. -/
def mrnRE : RE :=
  cat [.bnd,
       .alt (cat [.lit "MRN".data true, .rep (fun c => c = ':' || isPySpace c) 0 none,
                  .rep isDigitC 5 (some 12)])
            (.rep isDigitC 7 (some 12)),
       .bnd]

/-- `PATTERNS["ssn_like"]`: `\b\d{3}-\d{2}-\d{4}\b`. -/
def ssnLikeRE : RE :=
  cat [.bnd, .rep isDigitC 3 (some 3), .lit ['-'] false, .rep isDigitC 2 (some 2),
       .lit ['-'] false, .rep isDigitC 4 (some 4), .bnd]

/-- `PATTERNS["date"]`: numeric day-month-year (separators `-` or `/`)
or `(Jan|…|Dec)[a-z]*\s+\d{1,2},\s+\d{4}`, both `\b`-anchored, `re.I`. -/
def dateRE : RE :=
  cat [.bnd,
       .alt (cat [.rep isDigitC 1 (some 2), .cls (fun c => c = '-' || c = '/'),
                  .rep isDigitC 1 (some 2), .cls (fun c => c = '-' || c = '/'),
                  .rep isDigitC 2 (some 4)])
            (cat [alts (.lit "Jan".data true)
                    [.lit "Feb".data true, .lit "Mar".data true, .lit "Apr".data true,
                     .lit "May".data true, .lit "Jun".data true, .lit "Jul".data true,
                     .lit "Aug".data true, .lit "Sep".data true, .lit "Oct".data true,
                     .lit "Nov".data true, .lit "Dec".data true],
                  .rep isAlphaC 0 none, .rep isPySpace 1 none, .rep isDigitC 1 (some 2),
                  .lit [','] true, .rep isPySpace 1 none, .rep isDigitC 4 (some 4)]),
       .bnd]

/-- `PATTERNS["name_hint"]`:
`\b(?:Patient|Pt\.?|Mr\.|Ms\.|Mrs\.|Dr\.|MD|RN)\s+[A-Z][a-z]+(?:\s[A-Z][a-z]+)?\b`
(case-sensitive). -/
def nameHintRE : RE :=
  cat [.bnd,
       alts (.lit "Patient".data false)
         [cat [.lit "Pt".data false, .rep (· = '.') 0 (some 1)],
          .lit "Mr.".data false, .lit "Ms.".data false, .lit "Mrs.".data false,
          .lit "Dr.".data false, .lit "MD".data false, .lit "RN".data false],
       .rep isPySpace 1 none, .cls isUpperC, .rep isLowerC 1 none,
       .opt (cat [.cls isPySpace, .cls isUpperC, .rep isLowerC 1 none]), .bnd]

/-- `PATTERNS["address_like"]`:
`\b\d{1,5}\s+[A-Z][A-Za-z]+\s(?:St|Street|Ave|Avenue|Rd|Road|Blvd|Boulevard|Ln|Lane)\b`,
`re.I`. -/
def addressLikeRE : RE :=
  cat [.bnd, .rep isDigitC 1 (some 5), .rep isPySpace 1 none, .cls isAlphaC,
       .rep isAlphaC 1 none, .cls isPySpace,
       alts (.lit "St".data true)
         [.lit "Street".data true, .lit "Ave".data true, .lit "Avenue".data true,
          .lit "Rd".data true, .lit "Road".data true, .lit "Blvd".data true,
          .lit "Boulevard".data true, .lit "Ln".data true, .lit "Lane".data true],
       .bnd]

/-- `anonymizer.PATTERNS`, in source (insertion) order. -/
def PATTERNS : List (String × RE) :=
  [("email", emailRE), ("phone", phoneRE), ("mrn", mrnRE), ("ssn_like", ssnLikeRE),
   ("date", dateRE), ("name_hint", nameHintRE), ("address_like", addressLikeRE)]

/-- The configuration fields of `config.Settings` consumed by the core. -/
structure Settings where
  anonymize_strategy : String
  mask_char : String
  hash_salt : String
  reduce_whitespace : Bool
  keep_dates : Bool

/-- Defaults of `config.Settings`. -/
def defaultSettings : Settings :=
  { anonymize_strategy := "hash", mask_char := "█", hash_salt := "mediscan",
    reduce_whitespace := true, keep_dates := false }

/-- `_hash_token`: `"<ID:" + sha256((salt + token).encode()).hexdigest()[:10] + ">"`. -/
def hash_token (salt : String) (token : List Char) : List Char :=
  "<ID:".data ++ (sha256Hex (utf8 (salt.data ++ token))).take 10 ++ ['>']

/-- `_mask_token`: `settings.mask_char * max(6, len(token))`. -/
def mask_token (maskChar : String) (token : List Char) : List Char :=
  (List.replicate (max 6 token.length) maskChar.data).flatten

/-- The replacement closure `repl` of `_replace`: hash strategy hashes the
token, any other strategy masks it. -/
def replTok (st : Settings) (strategy : List Char) (token : List Char) : List Char :=
  if strategy = "hash".data then hash_token st.hash_salt token
  else mask_token st.mask_char token

/-- `_replace(text, pattern, strategy)`. -/
def replacePat (st : Settings) (strategy : List Char) (pat : RE) (text : List Char) :
    List Char :=
  subst pat (replTok st strategy) text

/-- `re.sub(r"[ \t]+", " ", ·)` pattern. -/
def htabRE : RE := .rep (fun c => c = ' ' || c = '\t') 1 none

/-- `re.sub(r"\s*\n\s*", "\n", ·)` pattern. -/
def nlRunRE : RE :=
  cat [.rep isPySpace 0 none, .cls (· = '\n'), .rep isPySpace 0 none]

/-- One iteration of the category loop in `anonymize`: skip a disabled
date category, substitute, and on any change record the match count taken
on the pre-replacement text. -/
def anonymizeStep (st : Settings) (strategy : List Char)
    (acc : List Char × List (String × Nat)) (p : String × RE) :
    List Char × List (String × Nat) :=
  if p.1 = "date" ∧ st.keep_dates then acc
  else
    let before := acc.1
    let out := replacePat st strategy p.2 before
    if out ≠ before then
      (out, upsert acc.2 p.1 (lookupD acc.2 p.1 0 + (finditer p.2 before).length))
    else (out, acc.2)

/-- `anonymize(text) -> (text, counts)` of `preprocess/anonymizer.py`. -/
def anonymize (st : Settings) (text : String) : String × List (String × Nat) :=
  let strategy := pyStrip (pyLower st.anonymize_strategy.data)
  let r := PATTERNS.foldl (anonymizeStep st strategy) (text.data, [])
  let out :=
    if st.reduce_whitespace then
      pyStrip (subst nlRunRE (fun _ => ['\n']) (subst htabRE (fun _ => [' ']) r.1))
    else r.1
  (String.mk out, r.2)

/-! ### `nlp/risk_tagger.py` -/

/-- `\b(subarachnoid|intracranial)\s+hemorrhage\b`. -/
def heurHigh1 : RE :=
  cat [.bnd, .alt (.lit "subarachnoid".data true) (.lit "intracranial".data true),
       .rep isPySpace 1 none, .lit "hemorrhage".data true, .bnd]

/-- `\bmass\s+(?:with|and)?\s*invasion\b`. -/
def heurHigh2 : RE :=
  cat [.bnd, .lit "mass".data true, .rep isPySpace 1 none,
       .opt (.alt (.lit "with".data true) (.lit "and".data true)),
       .rep isPySpace 0 none, .lit "invasion".data true, .bnd]

/-- `\bpulmonary\s+embolism\b`. -/
def heurHigh3 : RE :=
  cat [.bnd, .lit "pulmonary".data true, .rep isPySpace 1 none,
       .lit "embolism".data true, .bnd]

/-- `\bstemi\b|\bnstemi\b|\bmyocardial\s+infarction\b`. -/
def heurHigh4 : RE :=
  alts (cat [.bnd, .lit "stemi".data true, .bnd])
    [cat [.bnd, .lit "nstemi".data true, .bnd],
     cat [.bnd, .lit "myocardial".data true, .rep isPySpace 1 none,
          .lit "infarction".data true, .bnd]]

/-- `\bmalignan\w+\b`. -/
def heurHigh5 : RE := cat [.bnd, .lit "malignan".data true, .rep isWordC 1 none, .bnd]

/-- `\bperforation\b`. -/
def heurHigh6 : RE := cat [.bnd, .lit "perforation".data true, .bnd]

/-- A single keyword pattern `\bWORD\b`. -/
def kwRE (w : String) : RE := cat [.bnd, .lit w.data true, .bnd]

/-- `\bischemi\w+\b`. -/
def heurMod6 : RE := cat [.bnd, .lit "ischemi".data true, .rep isWordC 1 none, .bnd]

/-- `HEURISTIC_PATTERNS`, groups in source (insertion) order. -/
def HEURISTIC_PATTERNS : List (String × List RE) :=
  [("high", [heurHigh1, heurHigh2, heurHigh3, heurHigh4, heurHigh5, heurHigh6]),
   ("moderate", [kwRE "cardiomegaly", kwRE "consolidation", kwRE "effusion",
                 kwRE "pneumonia", kwRE "fracture", heurMod6])]

/-- The fields of `RiskConfig` consumed by `tag` (torch device omitted:
external collaborator concern). -/
structure RiskConfig where
  model_name : String
  labels : List String
  th_high : ℚ
  th_mod : ℚ
  use_heuristics : Bool

/-- `RiskConfig` as built from the `config.Settings` defaults. -/
def defaultRiskConfig : RiskConfig :=
  { model_name := "facebook/bart-large-mnli",
    labels := ["low risk", "moderate risk", "high risk"],
    th_high := 0.64, th_mod := 0.42, use_heuristics := true }

/-- `RiskTagger._heuristic_score`: lowercase the text, search the two
keyword groups, return the corresponding coarse prior. -/
def heuristic_score (text : String) : List (String × ℚ) :=
  let textL := pyLower text.data
  let high := (HEURISTIC_PATTERNS.getD 0 ("", [])).2.any (fun p => search p textL)
  let moderate := (HEURISTIC_PATTERNS.getD 1 ("", [])).2.any (fun p => search p textL)
  if high then [("high risk", 0.85), ("moderate risk", 0.1), ("low risk", 0.05)]
  else if moderate then [("high risk", 0.2), ("moderate risk", 0.6), ("low risk", 0.2)]
  else [("high risk", 0.05), ("moderate risk", 0.25), ("low risk", 0.70)]

/-- The `probs[label] = float(entail)` loop of `tag`: a dict keyed by the
configured labels with the collaborator's entailment probabilities. -/
def probsFromEntail (labels : List String) (entail : String → ℚ) :
    List (String × ℚ) :=
  labels.foldl (fun d l => upsert d l (entail l)) []

/-- `s = sum(probs.values()) or 1.0; probs = {k: v / s …}`. -/
def normalizeD (probs : List (String × ℚ)) : List (String × ℚ) :=
  let s0 := (probs.map (·.2)).sum
  let s := if s0 = 0 then 1 else s0
  probs.map (fun p => (p.1, p.2 / s))

/-- First-occurrence deduplication with an accumulator of seen keys. -/
def dedupKeysAux (seen : List String) : List String → List String
  | [] => []
  | x :: xs =>
      if x ∈ seen then dedupKeysAux seen xs else x :: dedupKeysAux (x :: seen) xs

/-- The fusion comprehension
`{k: 0.7 * probs.get(k, 0.0) + 0.3 * base_probs.get(k, 0.0) for k in set(probs) | set(base_probs)}`.
CPython's set iteration order is unspecified; the embedding fixes
first-occurrence order, which none of the verified properties depend on. -/
def fuseD (probs base : List (String × ℚ)) : List (String × ℚ) :=
  let keys := dedupKeysAux [] (probs.map (·.1) ++ base.map (·.1))
  keys.map (fun k => (k, 0.7 * lookupD probs k 0 + 0.3 * lookupD base k 0))

/-- `max(probs.items(), key=lambda kv: kv[1])[0]`: the first key attaining
the maximal value.  CPython raises on an empty dict (unreachable in the
source); the embedding returns `""` there. -/
def argmaxFirst (d : List (String × ℚ)) : String :=
  match d with
  | [] => ""
  | (k, v) :: r => (r.foldl (fun best p => if p.2 > best.2 then p else best) (k, v)).1

/-- The threshold decision of `tag` (risk_tagger.py lines 104-110). -/
def chooseLabel (d : List (String × ℚ)) (thHigh thMod : ℚ) : String :=
  let top := argmaxFirst d
  if lookupD d "high risk" 0 ≥ thHigh then "high risk"
  else if lookupD d "moderate risk" 0 ≥ thMod ∧ top ≠ "high risk" then
    "moderate risk"
  else top

/-- `RiskTagger.tag(text) -> (label, probs, meta)`.  The NLI collaborator
is abstracted at its interface: `nliOk` is `self.nli_ok` and `entail l`
the entailment probability returned for the hypothesis built from label
`l` (the premise window and tokenization live inside the collaborator). -/
def tag (cfg : RiskConfig) (nliOk : Bool) (entail : String → ℚ) (text : String) :
    String × List (String × ℚ) × List (String × String) :=
  let baseProbs : Option (List (String × ℚ)) :=
    if cfg.use_heuristics then some (heuristic_score text) else none
  let probs :=
    if nliOk then normalizeD (probsFromEntail cfg.labels entail)
    else match baseProbs with
      | some b => if b = [] then [("low risk", 1)] else b
      | none => [("low risk", 1)]
  let probs :=
    if ((match baseProbs with | some b => decide (b ≠ []) | none => false) && nliOk) then
      fuseD probs (baseProbs.getD [])
    else probs
  let top := chooseLabel probs cfg.th_high cfg.th_mod
  (top, probs,
   [("model", if nliOk then cfg.model_name else "heuristics-only"),
    ("heuristics", if cfg.use_heuristics then "True" else "False"),
    ("labels", String.intercalate "," cfg.labels)])

/-! ### `preprocess/segmenter.py` -/

/-- Does `_SENT_SPLIT_FALLBACK = (?<!\w\.\w.)(?<![A-Z][a-z]\.)(?<=\.|\?)\s`
match at offset `i`?  The three lookbehinds inspect the characters before
`i`; a lookbehind reaching past the start of the text fails. -/
def fallbackSplitAt (l : List Char) (i : Nat) : Bool :=
  (match l[i]? with | some c => isPySpace c | none => false) &&
  (decide (1 ≤ i) && (l.getD (i - 1) ' ' = '.' || l.getD (i - 1) ' ' = '?')) &&
  !(decide (3 ≤ i) && isUpperC (l.getD (i - 3) ' ') && isLowerC (l.getD (i - 2) ' ') &&
    l.getD (i - 1) ' ' = '.') &&
  !(decide (4 ≤ i) && isWordC (l.getD (i - 4) ' ') && l.getD (i - 3) ' ' = '.' &&
    isWordC (l.getD (i - 2) ' ') && l.getD (i - 1) ' ' ≠ '\n')

/-- `re.split` over the one-character separator `_SENT_SPLIT_FALLBACK`. -/
def fbGo (l : List Char) : List Char → Nat → List Char → List (List Char)
  | [], _, acc => [acc.reverse]
  | c :: rest, i, acc =>
      if fallbackSplitAt l i then acc.reverse :: fbGo l rest (i + 1) []
      else fbGo l rest (i + 1) (c :: acc)

/-- `_SENT_SPLIT_FALLBACK.split(text)`. -/
def fallbackSplit (l : List Char) : List (List Char) := fbGo l l 0 []

/-- `split_sentences` with the NLTK punkt collaborator abstracted:
`punktOk` is availability of the primary path (the `try` succeeding) and
`sentTok` the sentence list `sent_tokenize` returns. -/
def split_sentences (punktOk : Bool) (sentTok : String → List String)
    (text : String) : List String :=
  if pyStrip text.data = [] then []
  else if punktOk then
    ((sentTok text).map (fun s => String.mk (pyStrip s.data))).filter
      (fun s => 1 < s.length)
  else
    ((fallbackSplit text.data).map (fun s => String.mk (pyStrip s))).filter
      (fun s => s ≠ "")

/-! ### `nlp/summarizer.py` -/

/-- `re.sub(r"\s+", " ", ·)` pattern. -/
def wsRunRE : RE := .rep isPySpace 1 none

/-- `clean = re.sub(r"\s+", " ", text.strip())` of `summarize`. -/
def cleanText (text : String) : List Char :=
  subst wsRunRE (fun _ => [' ']) (pyStrip text.data)

/-- State machine for `re.split(r"(?<=[.!?])\s+", ·)`: a separator is a
maximal whitespace run whose preceding character is `.`, `!` or `?`. -/
def sentGo (prev : Option Char) (inSep : Bool) (acc : List Char) :
    List Char → List (List Char)
  | [] => [acc.reverse]
  | c :: rest =>
      if inSep then
        if isPySpace c then sentGo (some c) true acc rest
        else sentGo (some c) false (c :: acc) rest
      else
        if isPySpace c && (match prev with
            | some p => p = '.' || p = '!' || p = '?'
            | none => false) then
          acc.reverse :: sentGo (some c) true [] rest
        else sentGo (some c) false (c :: acc) rest

/-- `re.split(r"(?<=[.!?])\s+", text)`. -/
def pySentSplit (l : List Char) : List (List Char) := sentGo none false [] l

/-- `" ".join(l)`. -/
def joinSpaces (l : List (List Char)) : List Char :=
  match l with
  | [] => []
  | x :: xs => x ++ xs.flatMap (fun y => ' ' :: y)

/-- The sentence list of `extractive_summary`:
`[s.strip() for s in re.split(...) if len(s.strip()) > 3]`. -/
def extractiveSents (text : List Char) : List (List Char) :=
  ((pySentSplit text).map pyStrip).filter (fun s => 3 < s.length)

/-- `extractive_summary(text, max_sents=3)`.  The composite float score
(`log`-length × positional decay × keyword boost over `KEY_BOOSTS`) only
enters through the descending sort of `(score, sentence)` pairs; that
comparison is abstracted as the parameter `le` (`le a b` = "`a` is
ordered before `b`" under `sorted(..., reverse=True)`), since every
verified property holds for an arbitrary ordering. -/
def extractive_summary (le : Nat × List Char → Nat × List Char → Bool)
    (text : List Char) (max_sents : Nat) : List Char :=
  let sents := extractiveSents text
  if sents = [] then text
  else
    let top := ((List.insertionSort (fun a b => le a b = true) sents.enum).take
      max_sents).map (·.2)
    joinSpaces top

/-- `re.sub(r"^(SUMMARY|FINDINGS|IMPRESSION)[:\-]\s*", "", t, flags=re.I)`:
anchored at the start, so it removes at most one leading label. -/
def stripLabel (l : List Char) : List Char :=
  let tryLbl := fun (w : List Char) (t : List Char) =>
    if litAt w true t then
      let r := t.drop w.length
      match r with
      | c :: r' => if c = ':' || c = '-' then some (r'.dropWhile isPySpace) else none
      | [] => none
    else none
  match tryLbl "SUMMARY".data l with
  | some r => r
  | none =>
      match tryLbl "FINDINGS".data l with
      | some r => r
      | none =>
          match tryLbl "IMPRESSION".data l with
          | some r => r
          | none => l

/-- `_post_summarize`. -/
def post_summarize (text : List Char) : List Char :=
  let t := pyStrip (subst wsRunRE (fun _ => [' ']) text)
  let t := stripLabel t
  joinSpaces ((((pySentSplit t).map pyStrip).filter (fun s => s ≠ [])).take 3)

/-- The fields of `SummarizationConfig` the embedded paths consume. -/
structure SumConfig where
  model_name : String
  max_input_tokens : Nat
  prompt_style : String

/-- `SummarizationConfig` from the `config.Settings` defaults. -/
def defaultSumConfig : SumConfig :=
  { model_name := "google/flan-t5-base", max_input_tokens := 2048,
    prompt_style := "radiology_brief" }

/-- `PROMPTS[style].format(input=text)`, unknown styles falling back to
`generic_clinical` as in `_prompt`. -/
def promptFor (style : String) (input : List Char) : List Char :=
  if style = "radiology_brief" then
    ("You are a senior radiologist.\nSummarize the FINDINGS/IMPRESSION in 2-3 crisp sentences with clinical precision.\nAvoid PHI, avoid speculation, no recommendations, just the key findings.\n\nREPORT:\n").data
      ++ input ++ ("\n\nSUMMARY:").data
  else if style = "pathology_brief" then
    ("You are a senior pathologist. Provide a concise 2-3 sentence summary of key pathology findings.\nStick to facts present in the text. Avoid PHI.\n\nREPORT:\n").data
      ++ input ++ ("\n\nSUMMARY:").data
  else
    ("Provide a concise medical summary (2-3 sentences) of the following clinical note.\nAvoid PHI and avoid recommendations.\n\nNOTE:\n").data
      ++ input ++ ("\n\nSUMMARY:").data

/-- `_truncate_by_tokens`, with the tokenizer collaborator abstracted as
`encode`/`decode`.  `head` is `math.floor(max_input_tokens * 0.6)`
(computed here in exact arithmetic); `tokens[-tail:]` is the whole list
when `tail = 0`, mirroring CPython slicing. -/
def truncate_by_tokens (abstractiveOk : Bool) (encode : List Char → List Nat)
    (decode : List Nat → List Char) (maxInput : Nat) (text : List Char) :
    List Char :=
  if !abstractiveOk then text
  else
    let tokens := encode text
    if tokens.length ≤ maxInput then text
    else
      let head := 6 * maxInput / 10
      let tail := maxInput - head
      let tailPart := if tail = 0 then tokens else tokens.drop (tokens.length - tail)
      decode (tokens.take head ++ tailPart)

/-- `Summarizer.summarize(text, report_type) -> (summary, meta)`.  The
seq2seq collaborator is abstracted at its interface: `abstractiveOk` is
`self.abstractive_ok`, `encode`/`decode` the tokenizer, `generate` the
tokenize-generate-decode pipeline on the truncated prompt, and `le` the
float score ordering of the extractive fallback. -/
def summarize (cfg : SumConfig) (abstractiveOk : Bool)
    (encode : List Char → List Nat) (decode : List Nat → List Char)
    (generate : List Char → List Char)
    (le : Nat × List Char → Nat × List Char → Bool)
    (text : String) (report_type : String) : String × List (String × String) :=
  let clean := cleanText text
  if clean.length < 20 then
    (String.mk clean, [("mode", "passthrough"), ("reason", "short_text")])
  else if abstractiveOk then
    let prompt := promptFor cfg.prompt_style clean
    let trunc := truncate_by_tokens true encode decode cfg.max_input_tokens prompt
    let out := post_summarize (pyStrip (generate trunc))
    (String.mk out,
     [("mode", "abstractive"), ("model", cfg.model_name),
      ("report_type", report_type)])
  else
    (String.mk (extractive_summary le clean 3),
     [("mode", "extractive"), ("report_type", report_type), ("model", "fallback")])

/-! ### `app_streamlit.py`: span highlighter -/

/-- Sort key of `_collect_matches`:
`spans.sort(key=lambda x: (x[0], -(x[1] - x[0])))` — start ascending,
length descending on ties. -/
def spanKeyLe (a b : Nat × Nat × String) : Prop :=
  a.1 < b.1 ∨ (a.1 = b.1 ∧ b.2.1 - b.1 ≤ a.2.1 - a.1)

instance : DecidableRel spanKeyLe := fun a b => by unfold spanKeyLe; infer_instance

/-- The greedy overlap-dropping loop of `_collect_matches` (`last_end`
starts at `-1`; a span is kept iff its start is at least `last_end`). -/
def dropOverlaps : List (Nat × Nat × String) → Int → List (Nat × Nat × String)
  | [], _ => []
  | x :: xs, last =>
      if (x.1 : Int) ≥ last then x :: dropOverlaps xs (x.2.1 : Int)
      else dropOverlaps xs last

/-- The span-gathering loop of `_collect_matches`: all matches of both
severity groups tagged `(start, end, severity)`, in scan order. -/
def rawSpans (t : List Char) : List (Nat × Nat × String) :=
  HEURISTIC_PATTERNS.flatMap (fun g =>
    g.2.flatMap (fun pat => (finditer pat t).map (fun m => (m.1, m.2, g.1))))

/-- `_collect_matches(text)`: gather spans of both severity groups, sort
stably by `(start, -length)`, drop overlaps greedily. -/
def collect_matches (text : String) : List (Nat × Nat × String) :=
  dropOverlaps (List.insertionSort spanKeyLe (rawSpans text.data)) (-1)

/-- `html.escape` (default `quote=True`). -/
def html_escape (l : List Char) : List Char :=
  l.flatMap (fun c =>
    if c = '&' then "&amp;".data
    else if c = '<' then "&lt;".data
    else if c = '>' then "&gt;".data
    else if c = '"' then "&quot;".data
    else if c = '\'' then ("&#x27;").data
    else [c])

/-- The raw (pre-`html.escape`) text fragments the `highlight_text` loop
concatenates: gap pieces `text[cur:s]` and span pieces `text[s:e]` in
order, plus the trailing `text[cur:]`. -/
def highlightFragsGo (l : List Char) : List (Nat × Nat × String) → Nat → List (List Char)
  | [], cur => if cur < l.length then [slice l cur l.length] else []
  | (s, e, _) :: rest, cur =>
      (if cur < s then [slice l cur s] else []) ++ slice l s e :: highlightFragsGo l rest e

/-- The fragment decomposition induced by `highlight_text` (pre-escape). -/
def highlightFragments (text : String) : List (List Char) :=
  if pyStrip text.data = [] then []
  else
    let spans := collect_matches text
    if spans = [] then [text.data]
    else highlightFragsGo text.data spans 0

/-- The HTML `highlight_text` assembles for one highlighted span. -/
def spanHtml (sev : String) (frag : List Char) : List Char :=
  ("<span class=\"").data ++ (if sev = "high" then "hl-high" else "hl-moderate").data
    ++ ("\"><b>").data ++ html_escape frag ++ ("</b></span>").data

/-- The part-assembly loop of `highlight_text`. -/
def highlightHtmlGo (l : List Char) : List (Nat × Nat × String) → Nat → List Char
  | [], cur => if cur < l.length then html_escape (slice l cur l.length) else []
  | (s, e, sev) :: rest, cur =>
      (if cur < s then html_escape (slice l cur s) else []) ++
      spanHtml sev (slice l s e) ++ highlightHtmlGo l rest e

/-- `highlight_text(text)`. -/
def highlight_text (text : String) : String :=
  if pyStrip text.data = [] then ""
  else
    let spans := collect_matches text
    if spans = [] then String.mk (html_escape text.data)
    else String.mk (highlightHtmlGo text.data spans 0)

/-- `sum(probs.values())` over an embedded dict. -/
def sumD (d : List (String × ℚ)) : ℚ := (d.map (·.2)).sum

/-! ### Helper lemmas: match spans are well-formed -/

lemma litAt_le_length (s : List Char) (ci : Bool) :
    ∀ l : List Char, litAt s ci l = true → s.length ≤ l.length := by
  induction s with
  | nil => intro l _; simp
  | cons c s ih =>
      intro l h
      cases l with
      | nil => simp [litAt] at h
      | cons d l' =>
          simp only [litAt, Bool.and_eq_true] at h
          have := ih l' h.2
          simp only [List.length_cons]
          omega

lemma runLen_le_length (p : Char → Bool) : ∀ l : List Char, runLen p l ≤ l.length := by
  intro l
  induction l with
  | nil => simp [runLen]
  | cons c l' ih =>
      simp only [runLen, List.length_cons]
      split
      · omega
      · omega

lemma repCount_le (p : Char → Bool) (l : List Char) (i : Nat) (hi : Option Nat) :
    repCount p l i hi ≤ l.length - i := by
  have hr := runLen_le_length p (l.drop i)
  rw [List.length_drop] at hr
  cases hi with
  | none => simpa [repCount] using hr
  | some h =>
      simp only [repCount]
      omega

lemma matchEnds_bounds (re : RE) (l : List Char) :
    ∀ i, i ≤ l.length → ∀ e ∈ matchEnds re l i, i ≤ e ∧ e ≤ l.length := by
  induction re with
  | eps =>
      intro i hi e he
      simp only [matchEnds, List.mem_singleton] at he
      omega
  | cls p =>
      intro i hi e he
      simp only [matchEnds] at he
      cases hli : l[i]? with
      | none => simp [hli] at he
      | some c =>
          rw [hli] at he
          split at he
          · have : i < l.length := (List.getElem?_eq_some.mp hli).1
            simp at he
            omega
          · simp at he
  | lit s ci =>
      intro i hi e he
      simp only [matchEnds] at he
      split at he
      · simp only [List.mem_singleton] at he
        rename_i h
        have hs := litAt_le_length s ci _ h
        rw [List.length_drop] at hs
        omega
      · simp at he
  | rep p lo hi' =>
      intro i hi e he
      simp only [matchEnds, List.mem_map, List.mem_range] at he
      obtain ⟨k, _, rfl⟩ := he
      have hm := repCount_le p l i hi'
      omega
  | seq a b iha ihb =>
      intro i hi e he
      simp only [matchEnds, List.mem_flatMap] at he
      obtain ⟨j, hj, he⟩ := he
      have h1 := iha i hi j hj
      have h2 := ihb j h1.2 e he
      omega
  | alt a b iha ihb =>
      intro i hi e he
      simp only [matchEnds, List.mem_append] at he
      rcases he with he | he
      · exact iha i hi e he
      · exact ihb i hi e he
  | opt a iha =>
      intro i hi e he
      simp only [matchEnds, List.mem_append, List.mem_singleton] at he
      rcases he with he | rfl
      · exact iha i hi e he
      · omega
  | bnd =>
      intro i hi e he
      simp only [matchEnds] at he
      split at he
      · simp only [List.mem_singleton] at he
        omega
      · simp at he

lemma finditerAux_bounds (re : RE) (l : List Char) :
    ∀ fuel i, ∀ m ∈ finditerAux re l fuel i,
      i ≤ m.1 ∧ m.1 ≤ m.2 ∧ m.2 ≤ l.length := by
  intro fuel
  induction fuel with
  | zero => intro i m hm; simp [finditerAux] at hm
  | succ fuel ih =>
      intro i m hm
      simp only [finditerAux] at hm
      split at hm
      · rename_i hi
        cases hh : (matchEnds re l i).head? with
        | none =>
            rw [hh] at hm
            have := ih (i + 1) m hm
            omega
        | some e =>
            rw [hh] at hm
            have hmem : e ∈ matchEnds re l i := by
              cases hme : matchEnds re l i with
              | nil => rw [hme] at hh; simp at hh
              | cons x xs =>
                  rw [hme] at hh
                  simp only [List.head?_cons, Option.some.injEq] at hh
                  rw [← hh]
                  exact List.mem_cons_self x xs
            clear hh
            have hb := matchEnds_bounds re l i hi e hmem
            simp only [List.mem_cons] at hm
            rcases hm with rfl | hm
            · exact ⟨le_refl _, hb.1, hb.2⟩
            · have := ih (max e (i + 1)) m hm
              have hle : i ≤ max e (i + 1) := le_trans (by omega) (le_max_right _ _)
              omega
      · simp at hm

lemma finditer_bounds (re : RE) (l : List Char) :
    ∀ m ∈ finditer re l, m.1 ≤ m.2 ∧ m.2 ≤ l.length := by
  intro m hm
  have := finditerAux_bounds re l (l.length + 1) 0 m hm
  omega

/-! ### Helper lemmas: the greedy overlap filter -/

lemma dropOverlaps_subset :
    ∀ (l : List (Nat × Nat × String)) (last : Int),
      ∀ x ∈ dropOverlaps l last, x ∈ l := by
  intro l
  induction l with
  | nil => intro last x hx; simp [dropOverlaps] at hx
  | cons y ys ih =>
      intro last x hx
      simp only [dropOverlaps] at hx
      split at hx
      · simp only [List.mem_cons] at hx
        rcases hx with rfl | hx
        · exact List.mem_cons_self _ _
        · exact List.mem_cons_of_mem _ (ih _ x hx)
      · exact List.mem_cons_of_mem _ (ih _ x hx)

lemma dropOverlaps_ge :
    ∀ (l : List (Nat × Nat × String)) (last : Int),
      (∀ x ∈ l, x.1 ≤ x.2.1) →
      ∀ x ∈ dropOverlaps l last, last ≤ (x.1 : Int) := by
  intro l
  induction l with
  | nil => intro last _ x hx; simp [dropOverlaps] at hx
  | cons y ys ih =>
      intro last hwf x hx
      have hwf' : ∀ z ∈ ys, z.1 ≤ z.2.1 := fun z hz => hwf z (List.mem_cons_of_mem _ hz)
      have hy : y.1 ≤ y.2.1 := hwf y (List.mem_cons_self _ _)
      simp only [dropOverlaps] at hx
      split at hx
      · rename_i hge
        simp only [List.mem_cons] at hx
        rcases hx with rfl | hx
        · omega
        · have h2 := ih _ hwf' x hx
          omega
      · exact ih _ hwf' x hx

lemma dropOverlaps_pairwise :
    ∀ (l : List (Nat × Nat × String)) (last : Int),
      (∀ x ∈ l, x.1 ≤ x.2.1) →
      List.Pairwise (fun a b => a.2.1 ≤ b.1) (dropOverlaps l last) := by
  intro l
  induction l with
  | nil => intro last _; simp [dropOverlaps]
  | cons y ys ih =>
      intro last hwf
      have hwf' : ∀ x ∈ ys, x.1 ≤ x.2.1 := fun x hx => hwf x (List.mem_cons_of_mem _ hx)
      simp only [dropOverlaps]
      split
      · refine List.Pairwise.cons ?_ (ih _ hwf')
        intro x hx
        have := dropOverlaps_ge ys (y.2.1 : Int) hwf' x hx
        omega
      · exact ih _ hwf'

/-! ### Helper lemmas: `collect_matches` well-formedness -/

lemma rawSpans_bounds (t : List Char) :
    ∀ x ∈ rawSpans t, x.1 ≤ x.2.1 ∧ x.2.1 ≤ t.length := by
  intro x hx
  simp only [rawSpans, List.mem_flatMap, List.mem_map] at hx
  obtain ⟨g, _, pat, _, m, hm, rfl⟩ := hx
  exact finditer_bounds pat t m hm

lemma collect_matches_mem_raw (text : String) :
    ∀ x ∈ collect_matches text, x ∈ rawSpans text.data := by
  intro x hx
  have h1 := dropOverlaps_subset _ _ x hx
  exact ((List.perm_insertionSort spanKeyLe (rawSpans text.data)).mem_iff).mp h1

lemma collect_matches_bounds (text : String) :
    ∀ x ∈ collect_matches text, x.1 ≤ x.2.1 ∧ x.2.1 ≤ text.data.length := by
  intro x hx
  exact rawSpans_bounds text.data x (collect_matches_mem_raw text x hx)

lemma collect_matches_pairwise (text : String) :
    List.Pairwise (fun a b => a.2.1 ≤ b.1) (collect_matches text) := by
  apply dropOverlaps_pairwise
  intro x hx
  have hx' := ((List.perm_insertionSort spanKeyLe (rawSpans text.data)).mem_iff).mp hx
  exact (rawSpans_bounds text.data x hx').1

/-! ### Helper lemmas: fragment reconstruction -/

lemma slice_append_drop (l : List Char) (a b : Nat) (h : a ≤ b) :
    slice l a b ++ l.drop b = l.drop a := by
  have hb : l.drop b = (l.drop a).drop (b - a) := by
    rw [List.drop_drop]
    congr 1
    omega
  rw [slice, hb]
  exact List.take_append_drop _ _

lemma highlightFragsGo_flatten (l : List Char) :
    ∀ (spans : List (Nat × Nat × String)) (cur : Nat),
      (∀ x ∈ spans, x.1 ≤ x.2.1) →
      List.Pairwise (fun a b => a.2.1 ≤ b.1) spans →
      (∀ x ∈ spans, cur ≤ x.1) →
      (highlightFragsGo l spans cur).flatten = l.drop cur := by
  intro spans
  induction spans with
  | nil =>
      intro cur _ _ _
      simp only [highlightFragsGo]
      split
      · rename_i hcur
        have hlen : (l.drop cur).length ≤ l.length - cur := by
          rw [List.length_drop]
        simp only [List.flatten_cons, List.flatten_nil, List.append_nil, slice]
        exact List.take_of_length_le hlen
      · rename_i hcur
        have : l.drop cur = [] := List.drop_eq_nil_of_le (by omega)
        simp [this]
  | cons x rest ih =>
      intro cur hwf hpw hcur
      obtain ⟨s, e, sev⟩ := x
      have hse : s ≤ e := hwf (s, e, sev) (List.mem_cons_self _ _)
      have hcs : cur ≤ s := hcur (s, e, sev) (List.mem_cons_self _ _)
      have hrest : (highlightFragsGo l rest e).flatten = l.drop e := by
        apply ih e (fun y hy => hwf y (List.mem_cons_of_mem _ hy))
          (List.Pairwise.sublist (List.sublist_cons_self _ _) hpw)
        intro y hy
        exact List.rel_of_pairwise_cons hpw hy
      simp only [highlightFragsGo, List.flatten_append, List.flatten_cons]
      rw [hrest, slice_append_drop l s e hse]
      split
      · simp only [List.flatten_cons, List.flatten_nil, List.append_nil]
        exact slice_append_drop l cur s hcs
      · rename_i hns
        have : cur = s := by omega
        subst this
        simp

/-! ### Claim theorems -/

/-- C1: the spec's count-correctness example.  The claim (spec §8, mirrored
by `tests/test_anonymizer.py`) expects `email=1, phone=1, mrn=1`; the code
instead yields `email=1, phone=2` and no `mrn` count on this input, because
the phone pattern's optional separator classes let it also consume
`" 12345678"` (the MRN digits, including the leading space), so the later
`mrn` category finds nothing.  This theorem evaluates the embedded
`anonymize` at the claimed input under the default configuration. -/
theorem C1_counts_eval :
    anonymize defaultSettings
      "Patient Mr. John Doe, email a@b.com, phone 415-555-0199. MRN 12345678." =
    ("<ID:2e6892a5e7>. John Doe, email <ID:4f65672349>, phone<ID:c458480777>. MRN<ID:47d81971db>.",
     [("email", 1), ("phone", 2), ("name_hint", 1)]) := by decide

/-- C2: for every input text, `_collect_matches` returns spans with no two
overlapping (`spans[i].end ≤ spans[j].start` for `i < j`) and sorted by
start. -/
theorem C2_resolve_nonoverlap (text : String) :
    List.Pairwise (fun a b => a.2.1 ≤ b.1) (collect_matches text) ∧
    List.Pairwise (fun a b => a.1 ≤ b.1) (collect_matches text) := by
  have h1 := collect_matches_pairwise text
  have h2 := collect_matches_bounds text
  refine ⟨h1, ?_⟩
  refine List.Pairwise.imp_of_mem ?_ h1
  intro a b ha _ hr
  have := (h2 a ha).1
  omega

/-- C2 witness: the invariant at a text with overlapping candidate
matches across both severity groups. -/
theorem C2_witness :
    List.Pairwise (fun a b => a.2.1 ≤ b.1)
      (collect_matches "Acute subarachnoid hemorrhage. Mild effusion.") ∧
    List.Pairwise (fun a b => a.1 ≤ b.1)
      (collect_matches "Acute subarachnoid hemorrhage. Mild effusion.") :=
  C2_resolve_nonoverlap "Acute subarachnoid hemorrhage. Mild effusion."

/-- C6 counterexample: on the regex fallback path the claim fails — for
the input `"go. A"` the fragment `"A"` (length 1 after trimming) is kept,
because the fallback filter only discards empty fragments. -/
theorem C6_fallback_keeps_short_fragment :
    ("A" : String) ∈ split_sentences false (fun _ => []) "go. A" ∧
    ("A" : String).length ≤ 1 := by decide

/-- C6 (amended): the primary path filters fragments of trimmed length
`≤ 1`, for every collaborator tokenization; the fallback path only filters
empty (whitespace-only) fragments, so single-character fragments can
survive there; empty or whitespace-only input yields `[]` on both paths. -/
theorem C6_segment_fragments (sentTok : String → List String) (text : String) :
    (∀ s ∈ split_sentences true sentTok text, 2 ≤ s.length) ∧
    (∀ s ∈ split_sentences false sentTok text, s ≠ "") ∧
    (pyStrip text.data = [] →
      ∀ punktOk, split_sentences punktOk sentTok text = []) := by
  refine ⟨?_, ?_, ?_⟩
  · intro s hs
    simp only [split_sentences] at hs
    split at hs
    · simp at hs
    · rw [if_pos trivial] at hs
      have := (List.mem_filter.mp hs).2
      simp at this
      omega
  · intro s hs
    simp only [split_sentences] at hs
    split at hs
    · simp at hs
    · rw [if_neg (by simp)] at hs
      have := (List.mem_filter.mp hs).2
      simpa using this
  · intro hb punktOk
    simp [split_sentences, hb]

/-- C6 witness: the amended theorem applied on the fallback path. -/
theorem C6_witness : ("A" : String) ≠ "" :=
  (C6_segment_fragments (fun _ => []) "go. A").2.1 "A" (by decide)

/-- C7 counterexample: two matched tokens of lengths 7 and 8 — both at or
beyond the floor of 6 — receive mask replacements of different lengths
(7 and 8), so the replacement length does depend on the token length
beyond the floor, leaking the exact PHI length there. -/
theorem C7_mask_leaks_beyond_floor :
    6 ≤ ("1234567".data).length ∧ 6 ≤ ("12345678".data).length ∧
    (mask_token defaultSettings.mask_char "1234567".data).length ≠
      (mask_token defaultSettings.mask_char "12345678".data).length := by decide

lemma mask_token_length (maskChar : String) (t : List Char) :
    (mask_token maskChar t).length = max 6 t.length * maskChar.data.length := by
  rw [mask_token, List.length_flatten, List.map_replicate, List.sum_replicate,
    smul_eq_mul]

/-- C7 (amended): with the default single-character mask, the replacement
length is `max 6 (token length)`: always at least the floor of 6, equal
(to 6) for any two tokens of length at most the floor — the exact length
of short PHI is not leaked — but equal to the token's own length beyond
the floor. -/
theorem C7_mask_floor (maskChar : String) (t t' : List Char)
    (h : maskChar.length = 1) :
    (mask_token maskChar t).length = max 6 t.length ∧
    6 ≤ (mask_token maskChar t).length ∧
    (t.length ≤ 6 → t'.length ≤ 6 →
      (mask_token maskChar t).length = (mask_token maskChar t').length) := by
  have hd : maskChar.data.length = 1 := h
  rw [mask_token_length, mask_token_length, hd, mul_one, mul_one]
  refine ⟨rfl, le_max_left _ _, ?_⟩
  intro h1 h2
  omega

/-- C7 witness. -/
theorem C7_witness :
    ("█" : String).length = 1 ∧
    (mask_token "█" "a@b.com".data).length = max 6 ("a@b.com".data).length :=
  ⟨by decide, (C7_mask_floor "█" "a@b.com".data [] (by decide)).1⟩

/-- C8: for a fixed configuration and fixed input, `anonymize` (and the
hash replacement `_hash_token`) is deterministic: equal settings and equal
texts give equal redacted output, counts, and hash tokens. -/
theorem C8_anonymize_deterministic (st st' : Settings) (t t' : String)
    (h1 : st = st') (h2 : t = t') :
    anonymize st t = anonymize st' t' ∧
    hash_token st.hash_salt t.data = hash_token st'.hash_salt t'.data := by
  subst h1; subst h2; exact ⟨rfl, rfl⟩

/-- C8 witness. -/
theorem C8_witness :
    anonymize defaultSettings "MRN 1234567." = anonymize defaultSettings "MRN 1234567." :=
  (C8_anonymize_deterministic defaultSettings defaultSettings _ _ rfl rfl).1

/-- C9: whenever the stripped, whitespace-collapsed text is shorter than
20 characters, `summarize` returns it unchanged with passthrough metadata,
for every model availability and every collaborator behaviour. -/
theorem C9_short_passthrough (cfg : SumConfig) (abOk : Bool)
    (encode : List Char → List Nat) (decode : List Nat → List Char)
    (generate : List Char → List Char)
    (le : Nat × List Char → Nat × List Char → Bool) (text rt : String)
    (h : (cleanText text).length < 20) :
    summarize cfg abOk encode decode generate le text rt =
      (String.mk (cleanText text),
       [("mode", "passthrough"), ("reason", "short_text")]) := by
  simp [summarize, h]

/-- C9 witness: a 7-character report passes through even with the model
available. -/
theorem C9_witness :
    (cleanText "Stable.").length < 20 ∧
    summarize defaultSumConfig true (fun _ => []) (fun _ => []) (fun _ => [])
      (fun _ _ => true) "Stable." "radiology" =
      ("Stable.", [("mode", "passthrough"), ("reason", "short_text")]) := by
  refine ⟨by decide, ?_⟩
  rw [C9_short_passthrough defaultSumConfig true (fun _ => []) (fun _ => [])
    (fun _ => []) (fun _ _ => true) "Stable." "radiology" (by decide)]
  decide

/-- C10 counterexample: for the whitespace-only (hence non-empty) input
`" "`, `highlight_text` short-circuits to the empty output, so the
concatenated fragments do not reconstruct the text — a character is
dropped. -/
theorem C10_cover_cex : (highlightFragments " ").flatten ≠ " ".data := by decide

/-- C10 (amended): for every input containing some non-whitespace
character, concatenating the gap and span fragments of `highlight_text`
(pre-escaping) reconstructs the input exactly; blank inputs instead
short-circuit to no fragments at all. -/
theorem C10_cover (text : String) (hb : pyStrip text.data ≠ []) :
    (highlightFragments text).flatten = text.data := by
  simp only [highlightFragments]
  rw [if_neg hb]
  split
  · simp
  · have h1 : ∀ x ∈ collect_matches text, x.1 ≤ x.2.1 :=
      fun x hx => (collect_matches_bounds text x hx).1
    have := highlightFragsGo_flatten text.data (collect_matches text) 0 h1
      (collect_matches_pairwise text) (fun x _ => Nat.zero_le _)
    rw [this, List.drop_zero]

/-! ### Helper lemmas: risk fusion engine -/

lemma heuristic_score_cases (text : String) :
    heuristic_score text =
        [("high risk", 0.85), ("moderate risk", 0.1), ("low risk", 0.05)] ∨
      heuristic_score text =
        [("high risk", 0.2), ("moderate risk", 0.6), ("low risk", 0.2)] ∨
      heuristic_score text =
        [("high risk", 0.05), ("moderate risk", 0.25), ("low risk", 0.70)] := by
  simp only [heuristic_score]
  split
  · exact Or.inl rfl
  · split
    · exact Or.inr (Or.inl rfl)
    · exact Or.inr (Or.inr rfl)

lemma heuristic_score_ne_nil (text : String) : heuristic_score text ≠ [] := by
  rcases heuristic_score_cases text with h | h | h <;> rw [h] <;> simp

lemma tag_probs_none (cfg : RiskConfig) (entail : String → ℚ) (text : String)
    (h : cfg.use_heuristics = false) :
    (tag cfg false entail text).2.1 = [("low risk", 1)] := by
  simp [tag, h]

lemma tag_probs_heurOnly (cfg : RiskConfig) (entail : String → ℚ) (text : String)
    (h : cfg.use_heuristics = true) :
    (tag cfg false entail text).2.1 = heuristic_score text := by
  simp [tag, h, heuristic_score_ne_nil text]

lemma tag_probs_modelOnly (cfg : RiskConfig) (entail : String → ℚ) (text : String)
    (h : cfg.use_heuristics = false) :
    (tag cfg true entail text).2.1 = normalizeD (probsFromEntail cfg.labels entail) := by
  simp [tag, h]

lemma tag_probs_fused (cfg : RiskConfig) (entail : String → ℚ) (text : String)
    (h : cfg.use_heuristics = true) :
    (tag cfg true entail text).2.1 =
      fuseD (normalizeD (probsFromEntail cfg.labels entail)) (heuristic_score text) := by
  simp [tag, h, heuristic_score_ne_nil text]

lemma tag_label_heurOnly (cfg : RiskConfig) (entail : String → ℚ) (text : String)
    (h : cfg.use_heuristics = true) :
    (tag cfg false entail text).1 =
      chooseLabel (heuristic_score text) cfg.th_high cfg.th_mod := by
  simp [tag, h, heuristic_score_ne_nil text]

lemma chooseLabel_high (d : List (String × ℚ)) (thH thM : ℚ)
    (h : thH ≤ lookupD d "high risk" 0) : chooseLabel d thH thM = "high risk" := by
  simp only [chooseLabel]
  rw [if_pos h]

lemma chooseLabel_mod (d : List (String × ℚ)) (thH thM : ℚ)
    (h1 : lookupD d "high risk" 0 < thH) (h2 : thM ≤ lookupD d "moderate risk" 0)
    (h3 : argmaxFirst d ≠ "high risk") : chooseLabel d thH thM = "moderate risk" := by
  simp only [chooseLabel]
  rw [if_neg (not_le.mpr h1), if_pos ⟨h2, h3⟩]

lemma chooseLabel_else (d : List (String × ℚ)) (thH thM : ℚ)
    (h1 : lookupD d "high risk" 0 < thH)
    (h2 : lookupD d "moderate risk" 0 < thM ∨ argmaxFirst d = "high risk") :
    chooseLabel d thH thM = argmaxFirst d := by
  simp only [chooseLabel]
  rw [if_neg (not_le.mpr h1), if_neg]
  rintro ⟨hm, ht⟩
  rcases h2 with h2 | h2
  · exact absurd hm (not_le.mpr h2)
  · exact ht h2

lemma chooseLabel_argmax_high (d : List (String × ℚ)) (thH thM : ℚ)
    (h : argmaxFirst d = "high risk") : chooseLabel d thH thM = "high risk" := by
  by_cases hc : thH ≤ lookupD d "high risk" 0
  · exact chooseLabel_high d thH thM hc
  · rw [chooseLabel_else d thH thM (not_le.mp hc) (Or.inr h)]
    exact h

lemma normalizeD_three (q1 q2 q3 : ℚ) (h : q1 + (q2 + q3) ≠ 0) :
    normalizeD [("low risk", q1), ("moderate risk", q2), ("high risk", q3)] =
      [("low risk", q1 / (q1 + (q2 + q3))),
       ("moderate risk", q2 / (q1 + (q2 + q3))),
       ("high risk", q3 / (q1 + (q2 + q3)))] := by
  simp only [normalizeD, List.map_cons, List.map_nil, List.sum_cons, List.sum_nil,
    add_zero]
  rw [if_neg h]

lemma fuseD_three (q1 q2 q3 b1 b2 b3 : ℚ) :
    fuseD [("low risk", q1), ("moderate risk", q2), ("high risk", q3)]
          [("high risk", b3), ("moderate risk", b2), ("low risk", b1)] =
      [("low risk", 0.7 * q1 + 0.3 * b1), ("moderate risk", 0.7 * q2 + 0.3 * b2),
       ("high risk", 0.7 * q3 + 0.3 * b3)] := rfl

lemma heur_dist_props (text : String) :
    (∀ p ∈ heuristic_score text, 0 ≤ p.2 ∧ p.2 ≤ 1) ∧
    sumD (heuristic_score text) = 1 := by
  rcases heuristic_score_cases text with h | h | h <;>
    rw [h] <;>
    refine ⟨?_, by norm_num [sumD]⟩ <;>
    · intro p hp
      simp only [List.mem_cons, List.not_mem_nil, or_false] at hp
      rcases hp with rfl | rfl | rfl <;> norm_num

lemma normalized_dist_props (e1 e2 e3 : ℚ)
    (h1 : 0 ≤ e1) (h2 : 0 ≤ e2) (h3 : 0 ≤ e3)
    (hnz : e1 + (e2 + e3) ≠ 0) :
    (∀ p ∈ [("low risk", e1 / (e1 + (e2 + e3))),
            ("moderate risk", e2 / (e1 + (e2 + e3))),
            ("high risk", e3 / (e1 + (e2 + e3)))], 0 ≤ p.2 ∧ p.2 ≤ 1) ∧
    |sumD [("low risk", e1 / (e1 + (e2 + e3))),
           ("moderate risk", e2 / (e1 + (e2 + e3))),
           ("high risk", e3 / (e1 + (e2 + e3)))] - 1| ≤ 1 / 1000000 := by
  have hs0 : 0 ≤ e1 + (e2 + e3) := by linarith
  have hsp : 0 < e1 + (e2 + e3) := lt_of_le_of_ne hs0 (Ne.symm hnz)
  have hq2 : e1 + e2 + e3 ≠ 0 := by
    intro hc
    exact hnz (by linarith)
  have hsum : e1 / (e1 + (e2 + e3)) + (e2 / (e1 + (e2 + e3)) +
      (e3 / (e1 + (e2 + e3)) + 0)) = 1 := by
    simp only [add_zero]
    rw [div_add_div_same, ← add_div, div_self hnz]
  constructor
  · intro p hp
    simp only [List.mem_cons, List.not_mem_nil, or_false] at hp
    rcases hp with rfl | rfl | rfl <;>
      exact ⟨div_nonneg (by assumption) hs0,
             (div_le_one hsp).mpr (by linarith)⟩
  · simp only [sumD, List.map_cons, List.map_nil, List.sum_cons, List.sum_nil]
    rw [hsum]
    norm_num

lemma fused_dist_props (e1 e2 e3 b1 b2 b3 : ℚ)
    (h1 : 0 ≤ e1) (h2 : 0 ≤ e2) (h3 : 0 ≤ e3)
    (hb1 : 0 ≤ b1) (hb1' : b1 ≤ 1) (hb2 : 0 ≤ b2) (hb2' : b2 ≤ 1)
    (hb3 : 0 ≤ b3) (hb3' : b3 ≤ 1) (hbsum : b1 + b2 + b3 = 1)
    (hnz : e1 + (e2 + e3) ≠ 0) :
    (∀ p ∈ [("low risk", 0.7 * (e1 / (e1 + (e2 + e3))) + 0.3 * b1),
            ("moderate risk", 0.7 * (e2 / (e1 + (e2 + e3))) + 0.3 * b2),
            ("high risk", 0.7 * (e3 / (e1 + (e2 + e3))) + 0.3 * b3)],
        0 ≤ p.2 ∧ p.2 ≤ 1) ∧
    |sumD [("low risk", 0.7 * (e1 / (e1 + (e2 + e3))) + 0.3 * b1),
           ("moderate risk", 0.7 * (e2 / (e1 + (e2 + e3))) + 0.3 * b2),
           ("high risk", 0.7 * (e3 / (e1 + (e2 + e3))) + 0.3 * b3)] - 1| ≤
      1 / 1000000 := by
  have hs0 : 0 ≤ e1 + (e2 + e3) := by linarith
  have hsp : 0 < e1 + (e2 + e3) := lt_of_le_of_ne hs0 (Ne.symm hnz)
  have hd1 : e1 / (e1 + (e2 + e3)) ≤ 1 := (div_le_one hsp).mpr (by linarith)
  have hd2 : e2 / (e1 + (e2 + e3)) ≤ 1 := (div_le_one hsp).mpr (by linarith)
  have hd3 : e3 / (e1 + (e2 + e3)) ≤ 1 := (div_le_one hsp).mpr (by linarith)
  have hn1 : 0 ≤ e1 / (e1 + (e2 + e3)) := div_nonneg h1 hs0
  have hn2 : 0 ≤ e2 / (e1 + (e2 + e3)) := div_nonneg h2 hs0
  have hn3 : 0 ≤ e3 / (e1 + (e2 + e3)) := div_nonneg h3 hs0
  have hq2 : e1 + e2 + e3 ≠ 0 := by
    intro hc
    exact hnz (by linarith)
  have hsum : e1 / (e1 + (e2 + e3)) + e2 / (e1 + (e2 + e3)) +
      e3 / (e1 + (e2 + e3)) = 1 := by
    rw [div_add_div_same, div_add_div_same,
      show e1 + e2 + e3 = e1 + (e2 + e3) from by ring, div_self hnz]
  constructor
  · intro p hp
    simp only [List.mem_cons, List.not_mem_nil, or_false] at hp
    rcases hp with rfl | rfl | rfl <;> constructor <;> simp only <;> linarith
  · simp only [sumD, List.map_cons, List.map_nil, List.sum_cons, List.sum_nil]
    have : 0.7 * (e1 / (e1 + (e2 + e3))) + 0.3 * b1 +
        (0.7 * (e2 / (e1 + (e2 + e3))) + 0.3 * b2 +
          (0.7 * (e3 / (e1 + (e2 + e3))) + 0.3 * b3 + 0)) = 1 := by
      linarith
    rw [this]
    norm_num

/-- C3: the decision rule — high-threshold override first, then the
moderate-threshold escalation guarded by "argmax is not already high",
else the argmax; consequently an argmax of "high risk" is never
suppressed.  And in the model-unavailable, heuristics-enabled case a
heuristic prior with `high risk ≥ threshold_high` always yields the final
label "high risk". -/
theorem C3_threshold_decision :
    (∀ (d : List (String × ℚ)) (thH thM : ℚ),
      (thH ≤ lookupD d "high risk" 0 → chooseLabel d thH thM = "high risk") ∧
      (lookupD d "high risk" 0 < thH → thM ≤ lookupD d "moderate risk" 0 →
        argmaxFirst d ≠ "high risk" → chooseLabel d thH thM = "moderate risk") ∧
      (lookupD d "high risk" 0 < thH →
        (lookupD d "moderate risk" 0 < thM ∨ argmaxFirst d = "high risk") →
        chooseLabel d thH thM = argmaxFirst d) ∧
      (argmaxFirst d = "high risk" → chooseLabel d thH thM = "high risk")) ∧
    (∀ (cfg : RiskConfig) (entail : String → ℚ) (text : String),
      cfg.use_heuristics = true →
      cfg.th_high ≤ lookupD (heuristic_score text) "high risk" 0 →
      (tag cfg false entail text).1 = "high risk") := by
  constructor
  · intro d thH thM
    exact ⟨chooseLabel_high d thH thM, chooseLabel_mod d thH thM,
           chooseLabel_else d thH thM, chooseLabel_argmax_high d thH thM⟩
  · intro cfg entail text hh hth
    rw [tag_label_heurOnly cfg entail text hh]
    exact chooseLabel_high _ _ _ hth

/-- C3 witness: `"pulmonary embolism"` triggers the high-severity prior
(0.85 ≥ 0.64) and, with the model unavailable, the final label is
"high risk". -/
theorem C3_witness :
    defaultRiskConfig.th_high ≤
      lookupD (heuristic_score "pulmonary embolism") "high risk" 0 ∧
    (tag defaultRiskConfig false (fun _ => 0) "pulmonary embolism").1 = "high risk" := by
  have h2 : defaultRiskConfig.th_high ≤
      lookupD (heuristic_score "pulmonary embolism") "high risk" 0 := by
    rw [show heuristic_score "pulmonary embolism" =
      [("high risk", 0.85), ("moderate risk", 0.1), ("low risk", 0.05)] from rfl]
    norm_num [lookupD, defaultRiskConfig]
  exact ⟨h2, C3_threshold_decision.2 defaultRiskConfig (fun _ => 0)
    "pulmonary embolism" rfl h2⟩

/-- C4 counterexample: with the model available but returning entailment
probability 0 for every label (allowed by the collaborator interface, and
guarded against division by zero by `or 1.0` in the source), the fused
distribution sums to 0.3, not 1: normalization fails. -/
theorem C4_zero_model_breaks_normalization :
    ¬ (|sumD (tag defaultRiskConfig true (fun _ => 0) "x").2.1 - 1| ≤ 1 / 1000000) := by
  rw [tag_probs_fused defaultRiskConfig (fun _ => 0) "x" rfl]
  rw [show heuristic_score "x" =
    [("high risk", 0.05), ("moderate risk", 0.25), ("low risk", 0.70)] from rfl]
  rw [show probsFromEntail defaultRiskConfig.labels (fun _ => 0) =
    [("low risk", (0 : ℚ)), ("moderate risk", 0), ("high risk", 0)] from rfl]
  have hn : normalizeD [("low risk", (0 : ℚ)), ("moderate risk", 0), ("high risk", 0)] =
      [("low risk", 0), ("moderate risk", 0), ("high risk", 0)] := by
    norm_num [normalizeD]
  rw [hn, fuseD_three]
  norm_num [sumD]
  rw [abs_of_nonneg (by norm_num : (0 : ℚ) ≤ 7 / 10)]
  norm_num

/-- C4 (amended): in every availability configuration the final
distribution's values lie in [0,1], and the values sum to 1 (well within
the 1e-6 tolerance) provided that, when the model is available, its
entailment scores over the three labels do not all vanish (in that
degenerate case the sum is 0.3 with heuristics on, or 0 with heuristics
off). -/
theorem C4_distribution_normalized (cfg : RiskConfig) (nliOk : Bool)
    (entail : String → ℚ) (text : String)
    (hlab : cfg.labels = ["low risk", "moderate risk", "high risk"])
    (hent : ∀ l, 0 ≤ entail l ∧ entail l ≤ 1)
    (hnz : nliOk = true →
      entail "low risk" + entail "moderate risk" + entail "high risk" ≠ 0) :
    (∀ p ∈ (tag cfg nliOk entail text).2.1, 0 ≤ p.2 ∧ p.2 ≤ 1) ∧
    |sumD (tag cfg nliOk entail text).2.1 - 1| ≤ 1 / 1000000 := by
  have hnz' : nliOk = true →
      entail "low risk" + (entail "moderate risk" + entail "high risk") ≠ 0 := by
    intro h hc
    exact hnz h (by linarith)
  cases nliOk with
  | false =>
      cases hu : cfg.use_heuristics with
      | false =>
          rw [tag_probs_none cfg entail text hu]
          constructor
          · intro p hp
            simp only [List.mem_cons, List.not_mem_nil, or_false] at hp
            rw [hp]
            norm_num
          · norm_num [sumD]
      | true =>
          rw [tag_probs_heurOnly cfg entail text hu]
          have h := heur_dist_props text
          refine ⟨h.1, ?_⟩
          rw [h.2]
          norm_num
  | true =>
      have hq := hnz' rfl
      have hpe : probsFromEntail cfg.labels entail =
          [("low risk", entail "low risk"), ("moderate risk", entail "moderate risk"),
           ("high risk", entail "high risk")] := by
        rw [hlab]
        rfl
      cases hu : cfg.use_heuristics with
      | false =>
          rw [tag_probs_modelOnly cfg entail text hu, hpe, normalizeD_three _ _ _ hq]
          exact normalized_dist_props _ _ _ (hent "low risk").1
            (hent "moderate risk").1 (hent "high risk").1 hq
      | true =>
          rw [tag_probs_fused cfg entail text hu, hpe, normalizeD_three _ _ _ hq]
          rcases heuristic_score_cases text with h | h | h <;>
            rw [h, fuseD_three] <;>
            exact fused_dist_props _ _ _ _ _ _ (hent "low risk").1
              (hent "moderate risk").1 (hent "high risk").1
              (by norm_num) (by norm_num) (by norm_num) (by norm_num)
              (by norm_num) (by norm_num) (by norm_num) hq

/-- C4 witness: uniform entailment scores 1/3 with heuristics on. -/
theorem C4_witness :
    (∀ p ∈ (tag defaultRiskConfig true (fun _ => (1 : ℚ)/3) "x").2.1,
      0 ≤ p.2 ∧ p.2 ≤ 1) ∧
    |sumD (tag defaultRiskConfig true (fun _ => (1 : ℚ)/3) "x").2.1 - 1| ≤
      1 / 1000000 :=
  C4_distribution_normalized defaultRiskConfig true (fun _ => (1 : ℚ)/3) "x" rfl
    (fun _ => by norm_num) (fun _ => by norm_num)

/-! ### Helper lemmas: extractive fallback -/

lemma snd_mem_of_mem_enum {α : Type} {x : Nat × α} {l : List α}
    (h : x ∈ l.enum) : x.2 ∈ l :=
  List.getElem?_mem (List.mem_enum_iff_getElem?.mp h)

lemma joinSpaces_ne_nil {x : List Char} {xs : List (List Char)} (h : x ≠ []) :
    joinSpaces (x :: xs) ≠ [] := by
  simp only [joinSpaces]
  intro hc
  exact h (List.append_eq_nil.mp hc).1

/-- C5 counterexample: `" hi "` is a non-empty input, yet with the model
unavailable `summarize` returns passthrough metadata (the short-text
short-circuit), not the extractive-fallback marker the claim requires for
every non-empty input. -/
theorem C5_short_input_not_extractive :
    (" hi " : String) ≠ "" ∧
    lookupD (summarize defaultSumConfig false (fun _ => []) (fun _ => [])
      (fun _ => []) (fun _ _ => true) " hi " "radiology").2 "mode" "" =
      "passthrough" := by
  constructor
  · decide
  · decide

set_option maxHeartbeats 2000000 in
/-- C5 (amended): with the model unavailable, for every input whose
cleaned form has at least 20 characters and yields at least one sentence
fragment longer than 3 characters, `summarize` returns extractive-fallback
metadata and a non-empty summary that is the space-join of at most 3 of
the input's sentence fragments.  (Shorter inputs pass through; degenerate
inputs whose fragments are all ≤ 3 characters return the cleaned text
unchanged.) -/
theorem C5_extractive_fallback (cfg : SumConfig)
    (encode : List Char → List Nat) (decode : List Nat → List Char)
    (generate : List Char → List Char)
    (le : Nat × List Char → Nat × List Char → Bool) (text rt : String)
    (hlen : 20 ≤ (cleanText text).length)
    (hsents : extractiveSents (cleanText text) ≠ []) :
    (summarize cfg false encode decode generate le text rt).2 =
      [("mode", "extractive"), ("report_type", rt), ("model", "fallback")] ∧
    ∃ sel : List (List Char),
      sel ≠ [] ∧ sel.length ≤ 3 ∧
      (∀ s ∈ sel, s ∈ extractiveSents (cleanText text)) ∧
      (summarize cfg false encode decode generate le text rt).1 =
        String.mk (joinSpaces sel) ∧
      (summarize cfg false encode decode generate le text rt).1 ≠ "" := by
  have hns : ¬ ((cleanText text).length < 20) := not_lt.mpr hlen
  have hsum : summarize cfg false encode decode generate le text rt =
      (String.mk (extractive_summary le (cleanText text) 3),
       [("mode", "extractive"), ("report_type", rt), ("model", "fallback")]) := by
    simp only [summarize]
    rw [if_neg hns, if_neg (by simp : ¬ (false = true))]
  have hex : extractive_summary le (cleanText text) 3 =
      joinSpaces (((List.insertionSort (fun a b => le a b = true)
        (extractiveSents (cleanText text)).enum).take 3).map (·.2)) := by
    simp only [extractive_summary]
    rw [if_neg hsents]
  have hall : ∀ s ∈ ((List.insertionSort (fun a b => le a b = true)
      (extractiveSents (cleanText text)).enum).take 3).map (·.2),
      s ∈ extractiveSents (cleanText text) := by
    intro s hs
    simp only [List.mem_map] at hs
    obtain ⟨x, hx, rfl⟩ := hs
    have hx2 := List.mem_of_mem_take hx
    have hx3 := (List.perm_insertionSort (fun a b => le a b = true)
      (extractiveSents (cleanText text)).enum).mem_iff.mp hx2
    exact snd_mem_of_mem_enum hx3
  have hne : ((List.insertionSort (fun a b => le a b = true)
      (extractiveSents (cleanText text)).enum).take 3).map (·.2) ≠ [] := by
    have hpos : 0 < (extractiveSents (cleanText text)).length :=
      List.length_pos.mpr hsents
    have hlen2 : (List.insertionSort (fun a b => le a b = true)
        (extractiveSents (cleanText text)).enum).length =
        (extractiveSents (cleanText text)).length := by
      rw [(List.perm_insertionSort (fun a b => le a b = true)
        (extractiveSents (cleanText text)).enum).length_eq, List.enum_length]
    intro hc
    rw [List.map_eq_nil_iff] at hc
    have : ((List.insertionSort (fun a b => le a b = true)
        (extractiveSents (cleanText text)).enum).take 3).length = 0 := by
      rw [hc]
      rfl
    rw [List.length_take, hlen2] at this
    omega
  have hjoin_ne : joinSpaces (((List.insertionSort (fun a b => le a b = true)
      (extractiveSents (cleanText text)).enum).take 3).map (·.2)) ≠ [] := by
    cases htop : ((List.insertionSort (fun a b => le a b = true)
        (extractiveSents (cleanText text)).enum).take 3).map (·.2) with
    | nil => exact absurd htop hne
    | cons hd tl =>
        have hhd : hd ∈ extractiveSents (cleanText text) :=
          hall hd (htop ▸ List.mem_cons_self hd tl)
        have hhd3 : 3 < hd.length := by
          have := (List.mem_filter.mp hhd).2
          simpa using this
        have hhd_ne : hd ≠ [] := by
          intro hc
          rw [hc] at hhd3
          simp at hhd3
        exact joinSpaces_ne_nil hhd_ne
  refine ⟨by rw [hsum], ⟨((List.insertionSort (fun a b => le a b = true)
    (extractiveSents (cleanText text)).enum).take 3).map (·.2),
    hne, ?_, hall, ?_, ?_⟩⟩
  · rw [List.length_map, List.length_take]
    exact min_le_left _ _
  · rw [hsum, hex]
  · rw [hsum, hex]
    intro hc
    exact hjoin_ne (congrArg String.data hc)

/-- C5 witness. -/
theorem C5_witness :
    20 ≤ (cleanText "Chest pain noted today. Follow up required soon.").length ∧
    extractiveSents (cleanText "Chest pain noted today. Follow up required soon.") ≠ [] ∧
    (summarize defaultSumConfig false (fun _ => []) (fun _ => []) (fun _ => [])
      (fun _ _ => true) "Chest pain noted today. Follow up required soon."
      "radiology").2 =
      [("mode", "extractive"), ("report_type", "radiology"), ("model", "fallback")] :=
  ⟨by decide, by decide,
   (C5_extractive_fallback defaultSumConfig (fun _ => []) (fun _ => [])
     (fun _ => []) (fun _ _ => true)
     "Chest pain noted today. Follow up required soon." "radiology"
     (by decide) (by decide)).1⟩

/-- C10 witness. -/
theorem C10_witness :
    pyStrip "Mild cardiomegaly seen".data ≠ [] ∧
    (highlightFragments "Mild cardiomegaly seen").flatten = "Mild cardiomegaly seen".data :=
  ⟨by decide, C10_cover "Mild cardiomegaly seen" (by decide)⟩

end MediScan
